import Mathlib

/-!
Shallow embedding of `src/generate.py` (HPO → FHIR CodeSystem transformation).

The ontology side models the interface of the `pronto` collaborator that
`generate_codesystem` reads: an ontology exposes a metadata record with a
`data_version` string and a list of terms; each term exposes `id`, `name`,
`obsolete`, `definition` (empty string models a missing/empty definition, the
only thing Python truthiness distinguishes), `synonyms` (each with a scope tag
and a description text), `xrefs`, the identifiers of its direct superclasses
and subclasses (`superclasses(with_self=False, distance=1)` /
`subclasses(with_self=False, distance=1)`, iterated as the collaborator yields
them), and `subsets`.

The FHIR side models the `fhir.resources.codesystem` classes actually touched
by the script.  `CodeSystemConceptProperty` keeps the three value fields the
script ever passes (`valueBoolean`, `valueString`, `valueCode`) as independent
options, exactly as the Python model does, so that "exactly one value kind is
set" is a provable fact about the construction sites rather than a consequence
of the encoding.
-/

structure Synonym where
  description : String
  scope : String
  deriving Repr, DecidableEq

structure Xref where
  id : String
  deriving Repr, DecidableEq

structure Term where
  id : String
  name : String
  obsolete : Bool
  definition : String
  synonyms : List Synonym
  xrefs : List Xref
  superclasses1 : List String
  subclasses1 : List String
  subsets : List String
  deriving Repr, DecidableEq

structure Metadata where
  data_version : String
  deriving Repr, DecidableEq

structure Ontology where
  metadata : Metadata
  terms : List Term
  deriving Repr, DecidableEq

structure Coding where
  system : String
  code : String
  display : String
  deriving Repr, DecidableEq

structure CodeSystemConceptDesignation where
  language : String
  value : String
  use : Coding
  deriving Repr, DecidableEq

structure CodeSystemConceptProperty where
  code : String
  valueBoolean : Option Bool := none
  valueString : Option String := none
  valueCode : Option String := none
  deriving Repr, DecidableEq

structure CodeSystemConcept where
  code : String
  display : String
  designation : Option (List CodeSystemConceptDesignation) := none
  property : Option (List CodeSystemConceptProperty) := none
  deriving Repr, DecidableEq

structure CodeSystem where
  status : String
  content : String
  version : String
  name : String
  title : String
  versionNeeded : Bool
  experimental : Bool
  url : String
  valueSet : String
  count : Nat
  copyright : String
  purpose : String
  date : String
  concept : List CodeSystemConcept
  deriving Repr, DecidableEq

/-- Python `"...".split("/")` for the single-character separator `/`, on the
character list of the string: splits at every occurrence of `/`. -/
def splitSlash : List Char → List (List Char)
  | [] => [[]]
  | c :: rest =>
    match splitSlash rest with
    | [] => [[c]]
    | seg :: segs =>
      if c = '/' then [] :: seg :: segs else (c :: seg) :: segs

/-- Python `s.split("/")[-1]`: the last segment of the split. -/
def lastSlashSegment (s : String) : String :=
  String.mk ((splitSlash s.data).getLastD [])

/-- The fixed `use` coding attached to every designation
(lines 88–92 of `generate.py`). -/
def synonymUse : Coding :=
  { system := "http://snomed.info/sct"
    code := "900000000000013009"
    display := "Synonym" }

/-- The designation loop (lines 82–95): for each synonym, in source order,
an EXACT-scope synonym yields one designation; any other scope yields
nothing (only a debug log). -/
def buildDesignations : List Synonym → List CodeSystemConceptDesignation
  | [] => []
  | synonym :: rest =>
    if synonym.scope = "EXACT" then
      { language := "en", value := synonym.description, use := synonymUse }
        :: buildDesignations rest
    else
      buildDesignations rest

/-- The property block (lines 102–143), in source order: the `inactive`
property, then the `definition` property when the definition is truthy,
then one `xref` property per xref, one `parent` per direct superclass,
one `child` per direct subclass, one `subset` per subset tag. -/
def buildProperties (concept : Term) : List CodeSystemConceptProperty :=
  [{ code := "inactive", valueBoolean := some concept.obsolete }]
    ++ (if concept.definition = "" then []
        else [{ code := "definition", valueString := some concept.definition }])
    ++ concept.xrefs.map
        (fun xref => { code := "xref", valueString := some xref.id })
    ++ concept.superclasses1.map
        (fun superclass => { code := "parent", valueCode := some superclass })
    ++ concept.subclasses1.map
        (fun subclass => { code := "child", valueCode := some subclass })
    ++ concept.subsets.map
        (fun subset => { code := "subset", valueString := some subset })

/-- One iteration of the concept loop body (lines 74–147): build the concept
from `code`/`display`, attach the designations only when at least one was
produced, attach the properties only when at least one was produced. -/
def mkConcept (concept : Term) : CodeSystemConcept :=
  let designations := buildDesignations concept.synonyms
  let properties := buildProperties concept
  { code := concept.id
    display := concept.name
    designation := if designations.length > 0 then some designations else none
    property := if properties.length > 0 then some properties else none }

/-- The CodeSystem header as populated before the concept loop
(lines 47–62): every field the script sets, with `concept` initialized to
the empty list. -/
def initCodeSystem (hpo : Ontology) : CodeSystem :=
  { status := "active"
    content := "complete"
    version :=
      "http://purl.obolibrary.org/obo/hp/" ++ hpo.metadata.data_version
        ++ "/hp.owl"
    name := "HPO"
    title := "Human Phenotype Ontology"
    versionNeeded := false
    experimental := true
    url := "http://purl.obolibrary.org/obo/hp.owl"
    valueSet := "http://purl.obolibrary.org/obo/hp.owl" ++ "?vs"
    count := hpo.terms.length
    copyright :=
      "Please see license of HPO at http://www.human-phenotype-ontology.org."
    purpose :=
      "To provide a standardized vocabulary of human phenotypes encountered in human disease in a FHIR context."
    date := lastSlashSegment hpo.metadata.data_version
    concept := [] }

/-- One iteration of the loop at line 71/151: append the concept built for
one term to `stelsel.concept`; nothing else in the state changes. -/
def addConcept (stelsel : CodeSystem) (concept : Term) : CodeSystem :=
  { stelsel with concept := stelsel.concept ++ [mkConcept concept] }

/-- The transformation of `generate_codesystem` (lines 47–151), given the
loaded ontology: populate the header, then run the concept loop over
`hpo.terms()` in iteration order. -/
def generate_codesystem (hpo : Ontology) : CodeSystem :=
  hpo.terms.foldl addConcept (initCodeSystem hpo)

/-! ### Helper lemmas -/

theorem foldl_addConcept (l : List Term) (stelsel : CodeSystem) :
    l.foldl addConcept stelsel
      = { stelsel with concept := stelsel.concept ++ l.map mkConcept } := by
  induction l generalizing stelsel with
  | nil => simp
  | cons t rest ih =>
    simp [List.foldl_cons, ih, addConcept]

theorem generate_codesystem_eq (hpo : Ontology) :
    generate_codesystem hpo
      = { initCodeSystem hpo with concept := hpo.terms.map mkConcept } := by
  simp [generate_codesystem, foldl_addConcept, initCodeSystem]

theorem mkConcept_code (t : Term) : (mkConcept t).code = t.id := rfl

theorem mkConcept_display (t : Term) : (mkConcept t).display = t.name := rfl

theorem map_const_replicate {α β : Type} (l : List α) (b : β) :
    (l.map fun _ => b) = List.replicate l.length b := by
  induction l with
  | nil => rfl
  | cons a rest ih => simp [ih, List.replicate_succ]

theorem filter_map_of_true {α β : Type} (l : List α) (f : α → β) (p : β → Bool)
    (h : ∀ a, p (f a) = true) : (l.map f).filter p = l.map f := by
  induction l with
  | nil => rfl
  | cons a rest ih => simp [ih, h]

theorem filter_map_of_false {α β : Type} (l : List α) (f : α → β) (p : β → Bool)
    (h : ∀ a, p (f a) = false) : (l.map f).filter p = [] := by
  induction l with
  | nil => rfl
  | cons a rest ih => simp [ih, h]

theorem splitSlash_ne_nil (l : List Char) : splitSlash l ≠ [] := by
  cases l with
  | nil => simp [splitSlash]
  | cons c rest =>
    simp only [splitSlash]
    cases splitSlash rest with
    | nil => simp
    | cons seg segs =>
      by_cases h : c = '/' <;> simp [h]

theorem splitSlash_no_slash (l : List Char) (h : '/' ∉ l) :
    splitSlash l = [l] := by
  induction l with
  | nil => rfl
  | cons c rest ih =>
    have hc : c ≠ '/' := fun hc => h (by simp [hc])
    have hrest : '/' ∉ rest := fun hr => h (by simp [hr])
    simp [splitSlash, ih hrest, hc]

theorem lastSlashSegment_no_slash (s : String) (h : '/' ∉ s.data) :
    lastSlashSegment s = s := by
  simp [lastSlashSegment, splitSlash_no_slash s.data h]

/-! ### Claim theorems -/

/-- Claim C1: for every ontology with N terms the produced document has
exactly N entries, one per term in iteration order, each entry's `code`
equal to the term's identifier and `display` equal to the term's name;
no term is filtered out. -/
theorem C1_one_entry_per_term (hpo : Ontology) :
    (generate_codesystem hpo).concept.length = hpo.terms.length ∧
    (generate_codesystem hpo).concept.map (fun c => c.code)
      = hpo.terms.map (fun t => t.id) ∧
    (generate_codesystem hpo).concept.map (fun c => c.display)
      = hpo.terms.map (fun t => t.name) := by
  simp [generate_codesystem_eq, List.map_map, Function.comp,
    mkConcept_code, mkConcept_display]

/-- Claim C6: the header `count`, computed from the number of terms before
the loop and never updated by it, equals the length of the final entry
sequence for every ontology. -/
theorem C6_count_equals_entries (hpo : Ontology) :
    (initCodeSystem hpo).count = hpo.terms.length ∧
    (generate_codesystem hpo).count = (initCodeSystem hpo).count ∧
    (generate_codesystem hpo).count
      = (generate_codesystem hpo).concept.length := by
  refine ⟨rfl, ?_, ?_⟩ <;> simp [generate_codesystem_eq, initCodeSystem]

/-- Claim C7: every entry's property sequence is non-empty and the property
field is always attached, because the `inactive` property is emitted
unconditionally before any other property. -/
theorem C7_properties_always_attached (t : Term) :
    (mkConcept t).property = some (buildProperties t) ∧
    buildProperties t ≠ [] ∧
    (buildProperties t).head?
      = some { code := "inactive", valueBoolean := some t.obsolete } := by
  refine ⟨?_, ?_, ?_⟩ <;> simp [mkConcept, buildProperties]

/-- Claim C10: the concept loop only appends entries; every header field of
the document is unchanged between loop entry and loop exit. -/
theorem C10_loop_preserves_header (hpo : Ontology) :
    (generate_codesystem hpo).status = (initCodeSystem hpo).status ∧
    (generate_codesystem hpo).content = (initCodeSystem hpo).content ∧
    (generate_codesystem hpo).version = (initCodeSystem hpo).version ∧
    (generate_codesystem hpo).name = (initCodeSystem hpo).name ∧
    (generate_codesystem hpo).title = (initCodeSystem hpo).title ∧
    (generate_codesystem hpo).versionNeeded
      = (initCodeSystem hpo).versionNeeded ∧
    (generate_codesystem hpo).experimental
      = (initCodeSystem hpo).experimental ∧
    (generate_codesystem hpo).url = (initCodeSystem hpo).url ∧
    (generate_codesystem hpo).valueSet = (initCodeSystem hpo).valueSet ∧
    (generate_codesystem hpo).count = (initCodeSystem hpo).count ∧
    (generate_codesystem hpo).copyright = (initCodeSystem hpo).copyright ∧
    (generate_codesystem hpo).purpose = (initCodeSystem hpo).purpose ∧
    (generate_codesystem hpo).date = (initCodeSystem hpo).date ∧
    (generate_codesystem hpo).concept
      = (initCodeSystem hpo).concept ++ hpo.terms.map mkConcept := by
  simp [generate_codesystem_eq, initCodeSystem]

theorem buildDesignations_eq_filter (l : List Synonym) :
    buildDesignations l
      = (l.filter (fun s => s.scope == "EXACT")).map
          (fun s =>
            { language := "en", value := s.description, use := synonymUse }) := by
  induction l with
  | nil => rfl
  | cons s rest ih =>
    by_cases h : s.scope = "EXACT" <;> simp [buildDesignations, h, ih]

/-- Claim C2: every entry's properties appear in the fixed order
`inactive`, then `definition` (when present), then the `xref` properties,
then the `parent` properties, then the `child` properties, then the
`subset` properties. -/
theorem C2_property_order (t : Term) :
    (mkConcept t).property = some (buildProperties t) ∧
    (buildProperties t).map (fun p => p.code)
      = ["inactive"]
        ++ (if t.definition = "" then [] else ["definition"])
        ++ List.replicate t.xrefs.length "xref"
        ++ List.replicate t.superclasses1.length "parent"
        ++ List.replicate t.subclasses1.length "child"
        ++ List.replicate t.subsets.length "subset" := by
  constructor
  · simp [mkConcept, buildProperties]
  · by_cases hd : t.definition = "" <;>
      simp [buildProperties, hd, List.map_append, List.map_map,
        Function.comp_def, map_const_replicate]

/-- Claim C3: every entry carries exactly one `inactive` property valued by
the term's obsolete flag; exactly one `definition` property with the
definition text iff the definition is non-empty; and exactly one `parent`
(resp. `child`) property per direct superclass (resp. subclass)
identifier. -/
theorem C3_property_values (t : Term) :
    (buildProperties t).filter (fun p => p.code == "inactive")
      = [{ code := "inactive", valueBoolean := some t.obsolete }] ∧
    (buildProperties t).filter (fun p => p.code == "definition")
      = (if t.definition = "" then []
         else [{ code := "definition", valueString := some t.definition }]) ∧
    (buildProperties t).filter (fun p => p.code == "parent")
      = t.superclasses1.map
          (fun superclass => { code := "parent", valueCode := some superclass }) ∧
    (buildProperties t).filter (fun p => p.code == "child")
      = t.subclasses1.map
          (fun subclass => { code := "child", valueCode := some subclass }) ∧
    ((buildProperties t).filter (fun p => p.code == "parent")).length
      = t.superclasses1.length ∧
    ((buildProperties t).filter (fun p => p.code == "child")).length
      = t.subclasses1.length := by
  by_cases hd : t.definition = "" <;>
    simp [buildProperties, hd, List.filter_append, filter_map_of_true,
      filter_map_of_false]

/-- Claim C4: exactly the EXACT-scope synonyms produce designations, in
source synonym order, each with language "en", the synonym text as value
and the fixed Synonym use-code; other scopes produce nothing, and with no
EXACT synonym the designation field is absent (not an empty list). -/
theorem C4_designations (t : Term) :
    buildDesignations t.synonyms
      = (t.synonyms.filter (fun s => s.scope == "EXACT")).map
          (fun s =>
            { language := "en", value := s.description, use := synonymUse }) ∧
    (mkConcept t).designation
      = (if t.synonyms.filter (fun s => s.scope == "EXACT") = []
         then none else some (buildDesignations t.synonyms)) := by
  refine ⟨buildDesignations_eq_filter t.synonyms, ?_⟩
  simp only [mkConcept, buildDesignations_eq_filter]
  by_cases h : t.synonyms.filter (fun s => s.scope == "EXACT") = [] <;>
    simp [h, List.length_pos, buildDesignations_eq_filter]

/-- Claim C5: the header version is the fixed base URI, the metadata
version token and the fixed suffix; the header date is the final segment
of the token split on "/", which is the whole token when it has no "/". -/
theorem C5_version_and_date (hpo : Ontology) :
    (generate_codesystem hpo).version
      = "http://purl.obolibrary.org/obo/hp/" ++ hpo.metadata.data_version
          ++ "/hp.owl" ∧
    (generate_codesystem hpo).date
      = lastSlashSegment hpo.metadata.data_version ∧
    ('/' ∉ hpo.metadata.data_version.data →
      (generate_codesystem hpo).date = hpo.metadata.data_version) := by
  refine ⟨?_, ?_, fun h => ?_⟩
  · simp [generate_codesystem_eq, initCodeSystem]
  · simp [generate_codesystem_eq, initCodeSystem]
  · simp [generate_codesystem_eq, initCodeSystem,
      lastSlashSegment_no_slash _ h]

theorem C5_version_and_date_witness :
    '/' ∉ ("2024-06-25" : String).data ∧
    (generate_codesystem
        { metadata := { data_version := "2024-06-25" }, terms := [] }).date
      = "2024-06-25" :=
  ⟨by decide,
   (C5_version_and_date
      { metadata := { data_version := "2024-06-25" }, terms := [] }).2.2
      (by decide)⟩

/-- Claim C9: every property constructed carries exactly one value payload
of the fixed kind determined by its key: `inactive` sets only
`valueBoolean`; `definition`, `xref` and `subset` set only `valueString`;
`parent` and `child` set only `valueCode`. -/
theorem C9_one_value_kind (t : Term) (p : CodeSystemConceptProperty)
    (hp : p ∈ buildProperties t) :
    (p.code = "inactive" ∧ p.valueBoolean.isSome
      ∧ p.valueString = none ∧ p.valueCode = none) ∨
    ((p.code = "definition" ∨ p.code = "xref" ∨ p.code = "subset")
      ∧ p.valueString.isSome ∧ p.valueBoolean = none ∧ p.valueCode = none) ∨
    ((p.code = "parent" ∨ p.code = "child")
      ∧ p.valueCode.isSome ∧ p.valueBoolean = none ∧ p.valueString = none) := by
  simp only [buildProperties, List.mem_append] at hp
  rcases hp with ((((h | h) | h) | h) | h) | h
  · rcases List.mem_singleton.mp h with rfl
    simp
  · by_cases hd : t.definition = ""
    · rw [if_pos hd] at h
      exact absurd h (List.not_mem_nil p)
    · rw [if_neg hd] at h
      rcases List.mem_singleton.mp h with rfl
      simp
  · rcases List.mem_map.mp h with ⟨x, hx, rfl⟩
    simp
  · rcases List.mem_map.mp h with ⟨x, hx, rfl⟩
    simp
  · rcases List.mem_map.mp h with ⟨x, hx, rfl⟩
    simp
  · rcases List.mem_map.mp h with ⟨x, hx, rfl⟩
    simp

theorem C9_one_value_kind_witness :
    (({ code := "inactive", valueBoolean := some false }
        : CodeSystemConceptProperty)
      ∈ buildProperties
        { id := "X:001", name := "Test Phenotype", obsolete := false,
          definition := "A test definition.",
          synonyms := [{ description := "Test Syn", scope := "EXACT" }],
          xrefs := [{ id := "UMLS:123" }], superclasses1 := ["X:000"],
          subclasses1 := ["X:002"], subsets := ["core"] }) ∧
    ((({ code := "inactive", valueBoolean := some false }
          : CodeSystemConceptProperty).code = "inactive"
        ∧ ({ code := "inactive", valueBoolean := some false }
            : CodeSystemConceptProperty).valueBoolean.isSome
        ∧ ({ code := "inactive", valueBoolean := some false }
            : CodeSystemConceptProperty).valueString = none
        ∧ ({ code := "inactive", valueBoolean := some false }
            : CodeSystemConceptProperty).valueCode = none) ∨
     ((({ code := "inactive", valueBoolean := some false }
          : CodeSystemConceptProperty).code = "definition"
        ∨ ({ code := "inactive", valueBoolean := some false }
            : CodeSystemConceptProperty).code = "xref"
        ∨ ({ code := "inactive", valueBoolean := some false }
            : CodeSystemConceptProperty).code = "subset")
        ∧ ({ code := "inactive", valueBoolean := some false }
            : CodeSystemConceptProperty).valueString.isSome
        ∧ ({ code := "inactive", valueBoolean := some false }
            : CodeSystemConceptProperty).valueBoolean = none
        ∧ ({ code := "inactive", valueBoolean := some false }
            : CodeSystemConceptProperty).valueCode = none) ∨
     ((({ code := "inactive", valueBoolean := some false }
          : CodeSystemConceptProperty).code = "parent"
        ∨ ({ code := "inactive", valueBoolean := some false }
            : CodeSystemConceptProperty).code = "child")
        ∧ ({ code := "inactive", valueBoolean := some false }
            : CodeSystemConceptProperty).valueCode.isSome
        ∧ ({ code := "inactive", valueBoolean := some false }
            : CodeSystemConceptProperty).valueBoolean = none
        ∧ ({ code := "inactive", valueBoolean := some false }
            : CodeSystemConceptProperty).valueString = none)) :=
  ⟨by decide,
   C9_one_value_kind
     { id := "X:001", name := "Test Phenotype", obsolete := false,
       definition := "A test definition.",
       synonyms := [{ description := "Test Syn", scope := "EXACT" }],
       xrefs := [{ id := "UMLS:123" }], superclasses1 := ["X:000"],
       subclasses1 := ["X:002"], subsets := ["core"] }
     { code := "inactive", valueBoolean := some false }
     (by decide)⟩
